import Mathlib

/-!
Verification development for the `super-mario` repository.

Shallow embedding of the two source files:
  * `src/mario/public/game.js` — tile world, physics body, per-axis collision
    resolution, fixed-step update, perception snapshot;
  * `src/mario/server.js` — state validation, local heuristic policy, and the
    remote-decision wrapper with its fallback behaviour.

Numbers (JS doubles) are modelled as exact rationals `ℚ`; `Math.floor` is
`Int.floor` and `Math.round x` is `⌊x + 1/2⌋` (JS rounds half toward +∞).
Tile coordinates are `ℤ`.  The browser/DOM, rendering, timers and the HTTP
transport are out of scope; the asynchronous remote decision is modelled by an
explicit outcome value.
-/

namespace Mario

set_option maxRecDepth 400000

/-! ### Constants (game.js lines 4–11, 27) -/

def TILE : ℚ := 32
def LEVEL_W : ℤ := 120
def LEVEL_H : ℤ := 20
def GRAVITY : ℚ := 1800
def MOVE_ACCEL : ℚ := 1800
def MAX_SPEED_X : ℚ := 220
def JUMP_VY : ℚ := -520
/-- `FRICTION = 0.85` -/
def FRICTION : ℚ := 17/20
/-- `GOAL_X = (LEVEL_W - 3) * TILE` -/
def GOAL_X : ℚ := (120 - 3) * 32

/-! ### The level (game.js `makeLevel`, lines 59–84)

`makeLevel` imperatively fills a 20×120 array: ground rows 18–19, three
platform runs in rows 16–17, two gaps carved back out of row 18, two
single-tile pillars in row 17, and the goal pillar in column 117 (rows 9–17,
from the descending loop `for (y = LEVEL_H-3; y > LEVEL_H-12; y--)`).
`levelCell tx ty` is the final value of `lvl[ty][tx]`: the gap writes (line
73–74) came after the ground writes, so they win; no other writes overlap. -/

def levelCell (tx ty : ℤ) : Bool :=
  if ty = 18 ∧ ((48 ≤ tx ∧ tx < 52) ∨ (70 ≤ tx ∧ tx < 74)) then false
  else if 18 ≤ ty ∧ ty ≤ 19 then true
  else if ty = 17 ∧ ((10 ≤ tx ∧ tx < 20) ∨ (35 ≤ tx ∧ tx < 45)) then true
  else if ty = 16 ∧ (22 ≤ tx ∧ tx < 28) then true
  else if ty = 17 ∧ (tx = 60 ∨ tx = 85) then true
  else if tx = 117 ∧ (9 ≤ ty ∧ ty ≤ 17) then true
  else false

/-- A tile grid: the contents of the `WORLD` array, as a function.  The
concrete level is `levelCell`; theorems quantify over the grid where the
claim allows it. -/
def Grid : Type := ℤ → ℤ → Bool

/-- An everywhere-empty grid interior (out-of-bounds solidity is added by
`isSolidTile`, not by the grid). -/
def emptyGrid : Grid := fun _ _ => false

/-! ### Solidity query (game.js `isSolidTile`, lines 86–89) -/

def isSolidTile (W : Grid) (tx ty : ℤ) : Bool :=
  if tx < 0 ∨ ty < 0 ∨ LEVEL_W ≤ tx ∨ LEVEL_H ≤ ty then true
  else W tx ty

/-! ### Physics body (game.js `player` object, lines 16–25)

`onGroundLast` is first written at the end of `update` (line 182); before
that, `player.onGroundLast` is `undefined`, i.e. falsy, modelled `false`. -/

structure Body where
  x : ℚ
  y : ℚ
  w : ℚ
  h : ℚ
  vx : ℚ
  vy : ℚ
  onGround : Bool
  facing : ℤ
  onGroundLast : Bool

/-- The spawn state (game.js lines 16–25 / `reset`, lines 50–57). -/
def playerInit : Body :=
  { x := 32 * 2, y := 32 * 12, w := 26, h := 30,
    vx := 0, vy := 0, onGround := false, facing := 1, onGroundLast := false }

/-- `reset()` (game.js lines 50–57): restores spawn position, velocity,
grounded flag and facing; `w`, `h`, `onGroundLast` are not touched. -/
def resetBody (p : Body) : Body :=
  { p with x := 32 * 2, y := 32 * 12, vx := 0, vy := 0,
           onGround := false, facing := 1 }

/-! ### Per-axis collision resolution (game.js `rectVsTilesMove`, lines 91–127)

The scan loops (`for ty = yTop..yBot`, `for tx = xLeft..xRight`) break on the
first solid tile; since the clamped position and zeroed velocity depend only
on the leading tile index, the loop's observable effect is exactly "is any
scanned tile solid", modelled with `Finset.any` over `Finset.Icc`. -/

def yTopOf (o : Body) : ℤ := ⌊o.y / 32⌋
def yBotOf (o : Body) : ℤ := ⌊(o.y + o.h - 1) / 32⌋

/-- The leading tile column for a horizontal move: `Math.floor(ahead / TILE)`
with `ahead = nx + o.w` when moving right, `ahead = nx` when moving left. -/
def xTileFor (o : Body) (dx : ℚ) : ℤ :=
  if 0 < dx then ⌊(o.x + dx + o.w) / 32⌋ else ⌊(o.x + dx) / 32⌋

/-- Whether the horizontal scan (lines 100–106) finds a solid tile. -/
def horizHit (W : Grid) (o : Body) (dx : ℚ) : Bool :=
  decide (∃ ty ∈ Finset.Icc (yTopOf o) (yBotOf o),
    isSolidTile W (xTileFor o dx) ty = true)

/-- The leading tile row for a vertical move. -/
def yTileFor (o : Body) (dy : ℚ) : ℤ :=
  if 0 < dy then ⌊(o.y + dy + o.h) / 32⌋ else ⌊(o.y + dy) / 32⌋

def xLeftOf (o : Body) : ℤ := ⌊o.x / 32⌋
def xRightOf (o : Body) : ℤ := ⌊(o.x + o.w - 1) / 32⌋

/-- Whether the vertical scan (lines 117–124) finds a solid tile. -/
def vertHit (W : Grid) (o : Body) (dy : ℚ) : Bool :=
  decide (∃ tx ∈ Finset.Icc (xLeftOf o) (xRightOf o),
    isSolidTile W tx (yTileFor o dy) = true)

/-- `rectVsTilesMove(o, dx, dy)` (game.js lines 91–127): horizontal move
resolved first, then vertical from the already-moved horizontal position.
On a horizontal hit the body is clamped to the tile boundary with a 0.01px
inset and `vx` zeroed; on a vertical hit likewise for `vy`, and a downward
hit additionally sets `onGround`. -/
def rectVsTilesMove (W : Grid) (o : Body) (dx dy : ℚ) : Body :=
  let o :=
    if dx ≠ 0 then
      if horizHit W o dx then
        { o with x := if 0 < dx then (xTileFor o dx : ℚ) * 32 - o.w - 1/100
                      else ((xTileFor o dx : ℚ) + 1) * 32 + 1/100,
                 vx := 0 }
      else { o with x := o.x + dx }
    else o
  if dy ≠ 0 then
    if vertHit W o dy then
      { o with y := if 0 < dy then (yTileFor o dy : ℚ) * 32 - o.h - 1/100
                    else ((yTileFor o dy : ℚ) + 1) * 32 + 1/100,
               vy := 0,
               onGround := if 0 < dy then true else o.onGround }
    else { o with y := o.y + dy }
  else o

/-! ### Input keys (game.js `keys` table, as read by `update`) -/

structure Keys where
  arrowLeft : Bool
  arrowRight : Bool
  space : Bool
  keyZ : Bool

def noKeys : Keys := { arrowLeft := false, arrowRight := false, space := false, keyZ := false }

/-! ### The physics tick (game.js `update`, lines 129–183)

The AI-action scheduling (lines 131–139) and camera follow (lines 170–174)
are asynchronous/rendering side effects with no influence on the body state
within a tick and are omitted.  Everything else is kept in source order:
input acceleration and facing, `vx` integration/clamp/friction, grounded
reset and gravity, the jump gate on `onGroundLast`, the two collision
passes, the goal reset, and the `onGroundLast` tracking write. -/

def integrate (ks : Keys) (dt : ℚ) (p : Body) : Body :=
  let facing : ℤ := if ks.arrowRight then 1 else if ks.arrowLeft then -1 else p.facing
  let ax : ℚ := (if ks.arrowLeft then -MOVE_ACCEL else 0)
              + (if ks.arrowRight then MOVE_ACCEL else 0)
  let vx := (max (min (p.vx + ax * dt) MAX_SPEED_X) (-MAX_SPEED_X)) * FRICTION
  let vy := p.vy + GRAVITY * dt
  let vy := if (ks.space || ks.keyZ) && p.onGroundLast then JUMP_VY else vy
  { p with facing := facing, vx := vx, vy := vy, onGround := false }

def stepPhysics (W : Grid) (ks : Keys) (dt : ℚ) (p : Body) : Body :=
  let p1 := integrate ks dt p
  let p2 := rectVsTilesMove W p1 (p1.vx * dt) 0
  rectVsTilesMove W p2 0 (p2.vy * dt)

/-- The goal/reset test of lines 176–179:
`player.x > GOAL_X - TILE && player.y < (LEVEL_H - 3) * TILE`. -/
def goalReached (q : Body) : Prop := GOAL_X - 32 < q.x ∧ q.y < (20 - 3) * 32

instance (q : Body) : Decidable (goalReached q) := by
  unfold goalReached; infer_instance

def update (W : Grid) (ks : Keys) (dt : ℚ) (p : Body) : Body :=
  let q := stepPhysics W ks dt p
  let r := if goalReached q then resetBody q else q
  { r with onGroundLast := r.onGround }

/-! ### Perception snapshot (game.js `snapshotState`, lines 281–304) -/

structure SnapPlayer where
  x : ℤ
  y : ℤ
  vx : ℤ
  vy : ℤ
  onGround : Bool

structure Snapshot where
  player : SnapPlayer
  nearGrid : List (List ℕ)
  goalX : ℚ

/-- `Math.round` in JS is `x ↦ Math.floor(x + 0.5)` (ties toward +∞). -/
def jsRound (q : ℚ) : ℤ := ⌊q + 1/2⌋

def snapshotState (W : Grid) (p : Body) : Snapshot :=
  let txFeet : ℤ := ⌊(p.x + p.w / 2) / 32⌋
  let tyFeet : ℤ := ⌊(p.y + p.h) / 32⌋
  { player := { x := jsRound p.x, y := jsRound p.y,
                vx := jsRound p.vx, vy := jsRound p.vy,
                onGround := p.onGround },
    nearGrid := (List.range 5).map (fun (r : ℕ) =>
      (List.range 9).map (fun (c : ℕ) =>
        if isSolidTile W (txFeet + (c : ℤ)) (tyFeet - (r : ℤ)) then 1 else 0)),
    goalX := GOAL_X }

/-! ## Server side (server.js)

The agent server receives the snapshot as parsed JSON (`req.body.state`).
JS runtime values reaching `validateState`/`heuristic`/`decideAction` are
modelled by `JVal`; `jundef` stands for `undefined` (absent property). -/

inductive JVal where
  | jundef
  | jnull
  | jbool (b : Bool)
  | jnum (q : ℚ)
  | jstr (s : String)
  | jarr (xs : List JVal)
  | jobj (fields : List (String × JVal))

open JVal

/-- JS truthiness: `undefined`, `null`, `false`, `0`, `''` are falsy;
every object/array (incl. `[]`, `{}`) is truthy. -/
def truthy : JVal → Bool
  | jundef => false
  | jnull => false
  | jbool b => b
  | jnum q => q ≠ 0
  | jstr s => s ≠ ""
  | jarr _ => true
  | jobj _ => true

/-- `typeof v === 'object'` — true for objects, arrays and `null`. -/
def typeofObject : JVal → Bool
  | jnull => true
  | jarr _ => true
  | jobj _ => true
  | _ => false

def isBoolVal : JVal → Bool
  | jbool _ => true
  | _ => false

def isArrayVal : JVal → Bool
  | jarr _ => true
  | _ => false

/-- Property access `v.k` (guarded by `?.` or truthiness in the source):
object lookup, `undefined` otherwise. -/
def getField : JVal → String → JVal
  | jobj fs, k =>
    match fs.find? (fun f => f.1 == k) with
    | some f => f.2
    | none => jundef
  | _, _ => jundef

/-- Index access `v[i]` with a numeric literal index: array element, object
lookup under the numeric-string key, `undefined` otherwise. -/
def jIndex : JVal → ℕ → JVal
  | jarr xs, i => xs.getD i jundef
  | jobj fs, i => getField (jobj fs) (toString i)
  | _, _ => jundef

/-- Strict equality `v === n` against a number literal. -/
def isNumVal (v : JVal) (q : ℚ) : Bool :=
  match v with
  | jnum r => r == q
  | _ => false

/-- `a || b`. -/
def jsOr (a b : JVal) : JVal := if truthy a then a else b

/-! ### `validateState` (server.js lines 65–78) -/

/-- The loop `for (r = 0; r < 5; r++)` checking
`!Array.isArray(state.nearGrid[r]) || state.nearGrid[r].length < 9`,
throwing on the first failing row. -/
def checkRows (rows : List JVal) (r : ℕ) : Except String Unit :=
  if r < 5 then
    match jIndex (jarr rows) r with
    | jarr cells =>
      if cells.length < 9 then .error ("nearGrid row " ++ toString r ++ " needs >= 9 cols")
      else checkRows rows (r + 1)
    | _ => .error ("nearGrid row " ++ toString r ++ " needs >= 9 cols")
  else .ok ()
termination_by 5 - r
decreasing_by omega

def validateState (state : JVal) : Except String JVal :=
  if ¬ (truthy state = true ∧ typeofObject state = true) then .error "Missing state"
  else
    let p := jsOr (getField state "player") (jobj [])
    if ¬ isBoolVal (getField p "onGround") = true then .error "player.onGround must be boolean"
    else
      let ng := getField state "nearGrid"
      match ng with
      | jarr rows =>
        if rows.length < 5 then .error "nearGrid needs >= 5 rows"
        else match checkRows rows 0 with
          | .ok () => .ok state
          | .error e => .error e
      | _ => .error "nearGrid must be an array"

/-! ### `heuristic` (server.js lines 124–131) -/

def heuristic (state : JVal) : String :=
  let g := jsOr (getField state "nearGrid") (jarr [])
  let onGround := truthy (getField (getField state "player") "onGround")
  let obstacleAhead := isNumVal (jIndex (jIndex g 0) 1) 1 || isNumVal (jIndex (jIndex g 0) 2) 1
  let gapHere := isNumVal (jIndex (jIndex g 0) 0) 0
  if onGround && (obstacleAhead || gapHere) then "right_jump" else "right"

/-! ### `decideAction` (server.js lines 80–115) -/

/-- The six allowed actions (server.js line 19). -/
def ACTIONS : List String := ["idle", "left", "right", "jump", "left_jump", "right_jump"]

mutual

/-- JS `String(v)` as used on `parsed.action || ''` (line 105).  Arrays
stringify by joining their elements with `,` (with `null`/`undefined`
elements rendering empty), objects as `"[object Object]"`. -/
def jsString : JVal → String
  | jundef => "undefined"
  | jnull => "null"
  | jbool true => "true"
  | jbool false => "false"
  | jnum q => toString q
  | jstr s => s
  | jarr xs => String.intercalate "," (jsStringElems xs)
  | jobj _ => "[object Object]"

/-- Elements of an array under `Array.prototype.toString`: `null` and
`undefined` render as the empty string. -/
def jsStringElems : List JVal → List String
  | [] => []
  | jundef :: rest => "" :: jsStringElems rest
  | jnull :: rest => "" :: jsStringElems rest
  | x :: rest => jsString x :: jsStringElems rest

end

/-- `String(parsed.action || '').toLowerCase()` (server.js line 105). -/
def normalizeAction (parsed : JVal) : String :=
  (jsString (jsOr (getField parsed "action") (jstr ""))).toLower

/-- Outcome of the remote call as seen by `decideAction`'s control flow:
no configured client (line 82), any thrown error/timeout (line 109), or a
completed HTTP round-trip whose body, after `stripFences`, either fails
`JSON.parse` (`none` — the throw is caught by the same handler) or parses
to a JS value. -/
inductive RemoteOutcome where
  | noClient
  | failure
  | response (parsed : Option JVal)

def decideAction (state : JVal) : RemoteOutcome → String
  | .noClient => heuristic state
  | .failure => heuristic state
  | .response none => heuristic state
  | .response (some parsed) =>
    let a := normalizeAction parsed
    if ACTIONS.contains a then a else heuristic state

/-! ### Snapshot serialization

`requestAction` (game.js lines 306–316) posts `JSON.stringify({state})`;
the server parses it back, so `validateState`/`heuristic` see the snapshot
as the `JVal` below. -/

def snapToJson (s : Snapshot) : JVal :=
  jobj [("player", jobj [("x", jnum s.player.x), ("y", jnum s.player.y),
                         ("vx", jnum s.player.vx), ("vy", jnum s.player.vy),
                         ("onGround", jbool s.player.onGround)]),
        ("nearGrid", jarr (s.nearGrid.map (fun row => jarr (row.map (fun (n : ℕ) => jnum (n : ℚ)))))),
        ("goal", jobj [("x", jnum s.goalX)])]

/-! ## Geometric overlap predicates (for the collision-safety claims)

`hpen b tc` / `vpen b ty` are the (signed) horizontal/vertical widths of the
intersection of the body's bounding box `[x, x+w] × [y, y+h]` with tile
column `tc` / tile row `ty`; positive exactly when the interiors overlap in
that axis.  `deepOverlap W b eps` says some solid tile's interior is
penetrated by more than `eps` along the x-axis while genuinely overlapped
vertically. -/

def hpen (b : Body) (tc : ℤ) : ℚ :=
  min (b.x + b.w) (32 * ((tc : ℚ) + 1)) - max b.x (32 * (tc : ℚ))

def vpen (b : Body) (ty : ℤ) : ℚ :=
  min (b.y + b.h) (32 * ((ty : ℚ) + 1)) - max b.y (32 * (ty : ℚ))

def deepOverlap (W : Grid) (b : Body) (eps : ℚ) : Prop :=
  ∃ tc ty : ℤ, isSolidTile W tc ty = true ∧ eps < hpen b tc ∧ 0 < vpen b ty

/-- The tile columns strictly between the body's starting span and the
leading tile column of a horizontal move — the columns the scan of
`rectVsTilesMove` skips over (for a leftward move the body's own starting
column is included, since its trailing edge exits it). -/
def pathCol (o : Body) (dx : ℚ) (tc : ℤ) : Prop :=
  (0 < dx ∧ xRightOf o < tc ∧ tc < xTileFor o dx) ∨
  (dx < 0 ∧ xTileFor o dx < tc ∧ tc ≤ xLeftOf o)

/-! ## Concrete fixtures used by counterexamples and witnesses -/

/-- Jump key held (`keys.Space = true`), no arrows. -/
def ksJump : Keys := { arrowLeft := false, arrowRight := false, space := true, keyZ := false }

/-- A body falling onto the ground strip of the level: lands during the
next tick. -/
def bHeld : Body :=
  { x := 64, y := 545, w := 26, h := 30, vx := 0, vy := 300,
    onGround := false, facing := 1, onGroundLast := false }

/-- Standing one tile-row above the platform row 17 pillar at column 60,
left of it, for the horizontal-tunneling counterexample. -/
def c1Body : Body :=
  { x := 1856, y := 544, w := 26, h := 30, vx := 100, vy := 0,
    onGround := false, facing := 1, onGroundLast := false }

/-- Airborne past the goal line. -/
def pGoal : Body :=
  { x := 3750, y := 100, w := 26, h := 30, vx := 0, vy := 0,
    onGround := false, facing := 1, onGroundLast := false }

/-- A grounded-last-tick body well inside empty space. -/
def bAmend : Body :=
  { x := 100, y := 100, w := 26, h := 30, vx := 0, vy := 0,
    onGround := false, facing := 1, onGroundLast := true }

/-- A mid-air falling body well inside empty space. -/
def bFall : Body :=
  { x := 100, y := 100, w := 26, h := 30, vx := 0, vy := 5,
    onGround := false, facing := 1, onGroundLast := false }

/-- A body at rest in the air just past the goal line (`x > GOAL_X - TILE`,
`y < 544`), over an empty grid. -/
def bGoalFall : Body :=
  { x := 3713, y := 500, w := 26, h := 30, vx := 0, vy := 0,
    onGround := false, facing := 1, onGroundLast := false }

/-- A body aligned to tile rows (`y + h = 96`), inside empty space, for the
amended horizontal-resolution witness. -/
def bProbe : Body :=
  { x := 64, y := 66, w := 26, h := 30, vx := 10, vy := 0,
    onGround := false, facing := 1, onGroundLast := false }

/-! ## Theorems -/

/-! ### Helper lemmas: floor bounds and scan characterizations -/

theorem floor_div32_lt {a : ℚ} {n : ℤ} (h : a < 32 * n) : ⌊a / 32⌋ < n := by
  rw [Int.floor_lt]
  rw [div_lt_iff (by norm_num : (0:ℚ) < 32)]
  linarith

theorem le_floor_div32 {a : ℚ} {n : ℤ} (h : 32 * n ≤ a) : n ≤ ⌊a / 32⌋ := by
  rw [Int.le_floor]
  rw [le_div_iff (by norm_num : (0:ℚ) < 32)]
  linarith

theorem floor_div32_le (a : ℚ) : 32 * (⌊a / 32⌋ : ℚ) ≤ a := by
  have := Int.floor_le (a / 32)
  have h32 : (0:ℚ) < 32 := by norm_num
  rw [le_div_iff h32] at this
  linarith

theorem lt_floor_div32_succ (a : ℚ) : a < 32 * ((⌊a / 32⌋ : ℚ) + 1) := by
  have := Int.lt_floor_add_one (a / 32)
  have h32 : (0:ℚ) < 32 := by norm_num
  rw [div_lt_iff h32] at this
  linarith

theorem isSolidTile_emptyGrid {tx ty : ℤ}
    (h1 : 0 ≤ tx) (h2 : tx < 120) (h3 : 0 ≤ ty) (h4 : ty < 20) :
    isSolidTile emptyGrid tx ty = false := by
  unfold isSolidTile LEVEL_W LEVEL_H
  rw [if_neg (by push_neg; exact ⟨by omega, by omega, by omega, by omega⟩)]
  rfl

theorem horizHit_eq_false {W : Grid} {o : Body} {dx : ℚ}
    (h : ∀ ty, yTopOf o ≤ ty → ty ≤ yBotOf o →
      isSolidTile W (xTileFor o dx) ty = false) :
    horizHit W o dx = false := by
  unfold horizHit
  simp only [decide_eq_false_iff_not]
  rintro ⟨ty, hmem, hsolid⟩
  rw [Finset.mem_Icc] at hmem
  rw [h ty hmem.1 hmem.2] at hsolid
  exact Bool.false_ne_true hsolid

theorem horizHit_iff {W : Grid} {o : Body} {dx : ℚ} :
    horizHit W o dx = true ↔
      ∃ ty, yTopOf o ≤ ty ∧ ty ≤ yBotOf o ∧
        isSolidTile W (xTileFor o dx) ty = true := by
  unfold horizHit
  simp [Finset.mem_Icc, and_assoc]

theorem vertHit_eq_false {W : Grid} {o : Body} {dy : ℚ}
    (h : ∀ tx, xLeftOf o ≤ tx → tx ≤ xRightOf o →
      isSolidTile W tx (yTileFor o dy) = false) :
    vertHit W o dy = false := by
  unfold vertHit
  simp only [decide_eq_false_iff_not]
  rintro ⟨tx, hmem, hsolid⟩
  rw [Finset.mem_Icc] at hmem
  rw [h tx hmem.1 hmem.2] at hsolid
  exact Bool.false_ne_true hsolid

theorem rectH_move {W : Grid} {o : Body} {dx : ℚ}
    (hh : horizHit W o dx = false) :
    rectVsTilesMove W o dx 0 = { o with x := o.x + dx } := by
  by_cases hdx : dx = 0
  · subst hdx; cases o; simp [rectVsTilesMove]
  · simp [rectVsTilesMove, hdx, hh]

theorem rectH_hit_pos {W : Grid} {o : Body} {dx : ℚ}
    (hdx : 0 < dx) (hh : horizHit W o dx = true) :
    rectVsTilesMove W o dx 0 =
      { o with x := (xTileFor o dx : ℚ) * 32 - o.w - 1/100, vx := 0 } := by
  simp [rectVsTilesMove, hdx.ne', hh, hdx]

theorem rectH_hit_neg {W : Grid} {o : Body} {dx : ℚ}
    (hdx : dx < 0) (hh : horizHit W o dx = true) :
    rectVsTilesMove W o dx 0 =
      { o with x := ((xTileFor o dx : ℚ) + 1) * 32 + 1/100, vx := 0 } := by
  simp [rectVsTilesMove, hdx.ne, hh, not_lt_of_lt hdx]

theorem rectV_move {W : Grid} {o : Body} {dy : ℚ}
    (hv : vertHit W o dy = false) :
    rectVsTilesMove W o 0 dy = { o with y := o.y + dy } := by
  by_cases hdy : dy = 0
  · subst hdy; cases o; simp [rectVsTilesMove]
  · simp [rectVsTilesMove, hdy, hv]

theorem isSolidTile_inBounds (W : Grid) {tx ty : ℤ}
    (h1 : 0 ≤ tx) (h2 : tx < 120) (h3 : 0 ≤ ty) (h4 : ty < 20) :
    isSolidTile W tx ty = W tx ty := by
  unfold isSolidTile LEVEL_W LEVEL_H
  rw [if_neg (by push_neg; exact ⟨by omega, by omega, by omega, by omega⟩)]

theorem update_of_goal (W : Grid) (ks : Keys) (dt : ℚ) (p : Body)
    (hg : goalReached (stepPhysics W ks dt p)) :
    update W ks dt p =
      { stepPhysics W ks dt p with
        x := 32 * 2, y := 32 * 12, vx := 0, vy := 0,
        onGround := false, facing := 1, onGroundLast := false } := by
  simp [update, hg, resetBody]

theorem update_of_not_goal (W : Grid) (ks : Keys) (dt : ℚ) (p : Body)
    (hg : ¬ goalReached (stepPhysics W ks dt p)) :
    update W ks dt p =
      { stepPhysics W ks dt p with
        onGroundLast := (stepPhysics W ks dt p).onGround } := by
  simp [update, hg]

theorem rectH_window (W : Grid) (o : Body) (dx : ℚ)
    (h1 : -4 ≤ dx) (h2 : dx ≤ 4) :
    (o.x - 37 < (rectVsTilesMove W o dx 0).x
      ∧ (rectVsTilesMove W o dx 0).x < o.x + 33)
    ∧ (rectVsTilesMove W o dx 0).y = o.y
    ∧ (rectVsTilesMove W o dx 0).w = o.w
    ∧ (rectVsTilesMove W o dx 0).h = o.h
    ∧ (rectVsTilesMove W o dx 0).vy = o.vy
    ∧ (rectVsTilesMove W o dx 0).onGround = o.onGround := by
  rcases lt_trichotomy dx 0 with hneg | hzero | hpos
  · cases hh : horizHit W o dx
    · rw [rectH_move hh]
      exact ⟨⟨by show o.x - 37 < o.x + dx; linarith,
             by show o.x + dx < o.x + 33; linarith⟩, rfl, rfl, rfl, rfl, rfl⟩
    · rw [rectH_hit_neg hneg hh]
      have hxt : xTileFor o dx = ⌊(o.x + dx) / 32⌋ := by
        unfold xTileFor; rw [if_neg (not_lt_of_lt hneg)]
      have hle := floor_div32_le (o.x + dx)
      have hlt := lt_floor_div32_succ (o.x + dx)
      refine ⟨⟨?_, ?_⟩, rfl, rfl, rfl, rfl, rfl⟩
      · show o.x - 37 < ((xTileFor o dx : ℚ) + 1) * 32 + 1/100
        rw [hxt]; linarith
      · show ((xTileFor o dx : ℚ) + 1) * 32 + 1/100 < o.x + 33
        rw [hxt]; linarith
  · subst hzero
    have e : rectVsTilesMove W o 0 0 = o := by cases o; simp [rectVsTilesMove]
    rw [e]
    exact ⟨⟨by linarith, by linarith⟩, rfl, rfl, rfl, rfl, rfl⟩
  · cases hh : horizHit W o dx
    · rw [rectH_move hh]
      exact ⟨⟨by show o.x - 37 < o.x + dx; linarith,
             by show o.x + dx < o.x + 33; linarith⟩, rfl, rfl, rfl, rfl, rfl⟩
    · rw [rectH_hit_pos hpos hh]
      have hxt : xTileFor o dx = ⌊(o.x + dx + o.w) / 32⌋ := by
        unfold xTileFor; rw [if_pos hpos]
      have hle := floor_div32_le (o.x + dx + o.w)
      have hlt := lt_floor_div32_succ (o.x + dx + o.w)
      refine ⟨⟨?_, ?_⟩, rfl, rfl, rfl, rfl, rfl⟩
      · show o.x - 37 < (xTileFor o dx : ℚ) * 32 - o.w - 1/100
        rw [hxt]; linarith
      · show (xTileFor o dx : ℚ) * 32 - o.w - 1/100 < o.x + 33
        rw [hxt]; linarith

theorem getD_map_range {α : Type} (f : ℕ → α) {n i : ℕ} (h : i < n) (d : α) :
    ((List.range n).map f).getD i d = f i := by
  simp [List.getD, List.getElem?_map, List.getElem?_range, h]

theorem heuristic_mem_ACTIONS (s : JVal) : heuristic s ∈ ACTIONS := by
  simp only [heuristic]
  split <;> decide

theorem contains_iff_mem_actions (a : String) : ACTIONS.contains a = true ↔ a ∈ ACTIONS :=
  List.elem_iff

theorem getField_jsOr_empty (v : JVal) (k : String) :
    getField (jsOr v (jobj [])) k = getField v k := by
  unfold jsOr
  split
  · rfl
  · next h => cases v <;> first | rfl | exact absurd rfl h

theorem validateState_eq (state : JVal) :
    validateState state =
      if ¬ (truthy state = true ∧ typeofObject state = true) then .error "Missing state"
      else if ¬ isBoolVal (getField (getField state "player") "onGround") = true then
        .error "player.onGround must be boolean"
      else match getField state "nearGrid" with
        | jarr rows =>
          if rows.length < 5 then .error "nearGrid needs >= 5 rows"
          else match checkRows rows 0 with
            | .ok () => .ok state
            | .error e => .error e
        | _ => .error "nearGrid must be an array" := by
  simp only [validateState]
  rw [getField_jsOr_empty]

theorem checkRows_ok_iff (rows : List JVal) (k r : ℕ) (hk : 5 - r ≤ k) :
    (checkRows rows r = .ok () ↔
      ∀ i : ℕ, r ≤ i → i < 5 →
        ∃ cells, rows.getD i jundef = jarr cells ∧ 9 ≤ cells.length) := by
  induction k generalizing r with
  | zero =>
    rw [checkRows, if_neg (by omega)]
    constructor
    · intro _ i hi1 hi2
      omega
    · intro _
      rfl
  | succ k ih =>
    by_cases hr : r < 5
    · rw [checkRows, if_pos hr]
      have hidx : jIndex (jarr rows) r = rows.getD r jundef := rfl
      cases hrow : jIndex (jarr rows) r with
      | jarr cells =>
        dsimp only
        by_cases hlen : cells.length < 9
        · rw [if_pos hlen]
          constructor
          · intro h
            exact absurd h (by simp)
          · intro hall
            obtain ⟨cells', hc1, hc2⟩ := hall r le_rfl hr
            rw [hidx, hc1] at hrow
            injection hrow with h
            subst h
            omega
        · rw [if_neg hlen]
          rw [ih (r+1) (by omega)]
          constructor
          · intro hall i hi1 hi2
            rcases Nat.eq_or_lt_of_le hi1 with heq | hlt
            · subst heq
              exact ⟨cells, by rw [← hidx, hrow], by omega⟩
            · exact hall i (by omega) hi2
          · intro hall i hi1 hi2
            exact hall i (by omega) hi2
      | jundef =>
        constructor
        · intro h
          exact absurd h (by simp)
        · intro hall
          obtain ⟨cells', hc1, -⟩ := hall r le_rfl hr
          rw [hidx, hc1] at hrow
          simp at hrow
      | jnull =>
        constructor
        · intro h
          exact absurd h (by simp)
        · intro hall
          obtain ⟨cells', hc1, -⟩ := hall r le_rfl hr
          rw [hidx, hc1] at hrow
          simp at hrow
      | jbool b =>
        constructor
        · intro h
          exact absurd h (by simp)
        · intro hall
          obtain ⟨cells', hc1, -⟩ := hall r le_rfl hr
          rw [hidx, hc1] at hrow
          simp at hrow
      | jnum q =>
        constructor
        · intro h
          exact absurd h (by simp)
        · intro hall
          obtain ⟨cells', hc1, -⟩ := hall r le_rfl hr
          rw [hidx, hc1] at hrow
          simp at hrow
      | jstr s1 =>
        constructor
        · intro h
          exact absurd h (by simp)
        · intro hall
          obtain ⟨cells', hc1, -⟩ := hall r le_rfl hr
          rw [hidx, hc1] at hrow
          simp at hrow
      | jobj fs =>
        constructor
        · intro h
          exact absurd h (by simp)
        · intro hall
          obtain ⟨cells', hc1, -⟩ := hall r le_rfl hr
          rw [hidx, hc1] at hrow
          simp at hrow
    · rw [checkRows, if_neg hr]
      constructor
      · intro _ i hi1 hi2
        omega
      · intro _
        rfl

theorem max_min_gap {a b c d e : ℚ} (h : e < min c d - max a b) :
    a + e < c ∧ a + e < d ∧ b + e < c ∧ b + e < d := by
  have h1 := le_max_left a b
  have h2 := le_max_right a b
  have h3 := min_le_left c d
  have h4 := min_le_right c d
  exact ⟨by linarith, by linarith, by linarith, by linarith⟩

theorem gap_of_four {a b c d : ℚ} (h1 : a < c) (h2 : a < d) (h3 : b < c) (h4 : b < d) :
    0 < min c d - max a b := by
  rw [sub_pos]
  exact max_lt_iff.mpr ⟨lt_min h1 h2, lt_min h3 h4⟩

theorem vpen_pos_of_scan (o : Body) (hh1 : 1 ≤ o.h) {ty : ℤ}
    (h1 : yTopOf o ≤ ty) (h2 : ty ≤ yBotOf o) : 0 < vpen o ty := by
  unfold yTopOf at h1
  unfold yBotOf at h2
  unfold vpen
  have a2 : o.y < 32 * ((⌊o.y / 32⌋ : ℚ) + 1) := lt_floor_div32_succ o.y
  have a3 : 32 * ((⌊(o.y + o.h - 1) / 32⌋ : ℚ)) ≤ o.y + o.h - 1 := floor_div32_le _
  have h1' : (⌊o.y / 32⌋ : ℚ) ≤ (ty : ℚ) := by exact_mod_cast h1
  have h2' : (ty : ℚ) ≤ (⌊(o.y + o.h - 1) / 32⌋ : ℚ) := by exact_mod_cast h2
  exact gap_of_four (by linarith) (by linarith) (by linarith) (by linarith)

theorem scan_row_of_vpen_pos (o : Body) {ty : ℤ} (hv : 0 < vpen o ty) :
    yTopOf o ≤ ty := by
  unfold vpen at hv
  unfold yTopOf
  have h1 := le_max_left o.y (32 * (ty : ℚ))
  have h3 := min_le_left (o.y + o.h) (32 * ((ty : ℚ) + 1))
  have h4 := min_le_right (o.y + o.h) (32 * ((ty : ℚ) + 1))
  have hy : o.y < 32 * ((ty : ℚ) + 1) := by linarith
  have hcast : o.y < 32 * (((ty + 1 : ℤ)) : ℚ) := by push_cast; linarith
  have := floor_div32_lt hcast
  omega

theorem box_col_disjoint {o : Body} {tc : ℤ} (hw1 : 1 ≤ o.w) (h : hpen o tc ≤ 0) :
    o.x + o.w ≤ 32 * (tc : ℚ) ∨ 32 * ((tc : ℚ) + 1) ≤ o.x := by
  by_contra hcon
  push_neg at hcon
  obtain ⟨hA, hB⟩ := hcon
  have hpos := gap_of_four (show o.x < o.x + o.w by linarith) hB hA
    (show 32 * (tc : ℚ) < 32 * ((tc : ℚ) + 1) by linarith)
  unfold hpen at h
  linarith

theorem rect_zero (W : Grid) (o : Body) : rectVsTilesMove W o 0 0 = o := by
  cases o
  simp [rectVsTilesMove]

theorem horizHit_false_out {W : Grid} {o : Body} {dx : ℚ}
    (hh : horizHit W o dx = false) :
    ∀ ty, yTopOf o ≤ ty → ty ≤ yBotOf o → isSolidTile W (xTileFor o dx) ty = false := by
  intro ty h1 h2
  cases hb : isSolidTile W (xTileFor o dx) ty
  · rfl
  · have := horizHit_iff.mpr ⟨ty, h1, h2, hb⟩
    rw [this] at hh
    exact absurd hh (by simp)

theorem inBounds_of_isSolidTile_false {W : Grid} {tx ty : ℤ}
    (h : isSolidTile W tx ty = false) :
    0 ≤ tx ∧ tx < 120 ∧ 0 ≤ ty ∧ ty < 20 := by
  unfold isSolidTile at h
  by_cases hc : tx < 0 ∨ ty < 0 ∨ LEVEL_W ≤ tx ∨ LEVEL_H ≤ ty
  · rw [if_pos hc] at h
    exact absurd h (by simp)
  · push_neg at hc
    unfold LEVEL_W LEVEL_H at hc
    obtain ⟨h1, h2, h3, h4⟩ := hc
    exact ⟨by omega, by omega, by omega, by omega⟩

theorem yTop_le_yBot {o : Body} (hh1 : 1 ≤ o.h) : yTopOf o ≤ yBotOf o := by
  unfold yTopOf yBotOf
  apply Int.floor_le_floor
  rw [div_le_div_iff_of_pos_right (by norm_num : (0:ℚ) < 32)]
  linarith

theorem rectH_x_inLevel (W : Grid) (o : Body) (dx : ℚ)
    (hd1 : -4 ≤ dx) (hd2 : dx ≤ 4)
    (hw1 : 1 ≤ o.w) (hw2 : o.w ≤ 31) (hh1 : 1 ≤ o.h)
    (hx0 : 0 ≤ o.x) (hxl : 36 ≤ o.x + o.w) (hxr : o.x + o.w ≤ 3804) :
    0 ≤ (rectVsTilesMove W o dx 0).x
    ∧ (rectVsTilesMove W o dx 0).x + o.w ≤ 3840 := by
  rcases lt_trichotomy dx 0 with hneg | hzero | hpos
  · have hxT : xTileFor o dx = ⌊(o.x + dx) / 32⌋ := by
      unfold xTileFor
      rw [if_neg (not_lt_of_lt hneg)]
    have hle : 32 * ((xTileFor o dx : ℚ)) ≤ o.x + dx := by
      rw [hxT]; exact floor_div32_le _
    have hgt : o.x + dx < 32 * ((xTileFor o dx : ℚ) + 1) := by
      rw [hxT]; exact lt_floor_div32_succ _
    cases hh : horizHit W o dx
    · rw [rectH_move hh]
      have hfree := horizHit_false_out hh (yTopOf o) le_rfl (yTop_le_yBot hh1)
      obtain ⟨hb1, hb2, -, -⟩ := inBounds_of_isSolidTile_false hfree
      have hb1q : (0 : ℚ) ≤ (xTileFor o dx : ℚ) := by exact_mod_cast hb1
      constructor
      · show 0 ≤ o.x + dx
        linarith
      · show o.x + dx + o.w ≤ 3840
        linarith
    · rw [rectH_hit_neg hneg hh]
      have h1 : (0 : ℚ) < (xTileFor o dx : ℚ) + 1 := by linarith
      have h2 : (0 : ℤ) < xTileFor o dx + 1 := by exact_mod_cast h1
      have h3 : 32 * ((xTileFor o dx : ℚ)) ≤ 3803 := by linarith
      have h4 : (xTileFor o dx : ℚ) < 119 := by linarith
      have h5 : xTileFor o dx < 119 := by exact_mod_cast h4
      have h6 : (xTileFor o dx : ℚ) ≤ 118 := by
        exact_mod_cast (show xTileFor o dx ≤ 118 by omega)
      have h7 : (1 : ℚ) ≤ (xTileFor o dx : ℚ) + 1 := by
        exact_mod_cast (show (1:ℤ) ≤ xTileFor o dx + 1 by omega)
      constructor
      · show 0 ≤ ((xTileFor o dx : ℚ) + 1) * 32 + 1/100
        linarith
      · show ((xTileFor o dx : ℚ) + 1) * 32 + 1/100 + o.w ≤ 3840
        linarith
  · subst hzero
    rw [rect_zero]
    exact ⟨hx0, by linarith⟩
  · have hxT : xTileFor o dx = ⌊(o.x + dx + o.w) / 32⌋ := by
      unfold xTileFor
      rw [if_pos hpos]
    have hle : 32 * ((xTileFor o dx : ℚ)) ≤ o.x + dx + o.w := by
      rw [hxT]; exact floor_div32_le _
    have hgt : o.x + dx + o.w < 32 * ((xTileFor o dx : ℚ) + 1) := by
      rw [hxT]; exact lt_floor_div32_succ _
    cases hh : horizHit W o dx
    · rw [rectH_move hh]
      have hfree := horizHit_false_out hh (yTopOf o) le_rfl (yTop_le_yBot hh1)
      obtain ⟨-, hb2, -, -⟩ := inBounds_of_isSolidTile_false hfree
      have hb2q : (xTileFor o dx : ℚ) ≤ 119 := by
        exact_mod_cast (show xTileFor o dx ≤ 119 by omega)
      constructor
      · show 0 ≤ o.x + dx
        linarith
      · show o.x + dx + o.w ≤ 3840
        linarith
    · rw [rectH_hit_pos hpos hh]
      have h1 : (0 : ℚ) < (xTileFor o dx : ℚ) := by linarith
      have h2 : (0 : ℤ) < xTileFor o dx := by exact_mod_cast h1
      have h3 : (1 : ℚ) ≤ (xTileFor o dx : ℚ) := by
        exact_mod_cast (show (1:ℤ) ≤ xTileFor o dx by omega)
      constructor
      · show 0 ≤ (xTileFor o dx : ℚ) * 32 - o.w - 1/100
        linarith
      · show (xTileFor o dx : ℚ) * 32 - o.w - 1/100 + o.w ≤ 3840
        linarith

/-- C4: for every grid and every integer pair `(col, row)` outside
`[0, LEVEL_W) × [0, LEVEL_H)` — i.e. `col < 0`, `row < 0`, `col ≥ 120` or
`row ≥ 20` — the solidity query `isSolidTile` returns `true`
(closed-world invariant). -/
theorem isSolidTile_out_of_bounds (W : Grid) (tx ty : ℤ)
    (h : tx < 0 ∨ ty < 0 ∨ LEVEL_W ≤ tx ∨ LEVEL_H ≤ ty) :
    isSolidTile W tx ty = true := by
  unfold isSolidTile
  rw [if_pos h]

/-- Witness for `isSolidTile_out_of_bounds` at `(col, row) = (-1, 5)`. -/
theorem isSolidTile_out_of_bounds_witness :
    ((-1 : ℤ) < 0 ∨ (5 : ℤ) < 0 ∨ LEVEL_W ≤ -1 ∨ LEVEL_H ≤ 5)
      ∧ isSolidTile emptyGrid (-1) 5 = true :=
  ⟨Or.inl (by decide), isSolidTile_out_of_bounds emptyGrid (-1) 5 (Or.inl (by decide))⟩

/-- C9: the perception snapshot reports the player's `x`, `y`, `vx`, `vy`
rounded to the nearest integer (`Math.round`, i.e. `round` since both round
half toward +∞) and `onGround` as the body's boolean grounded flag, so the
snapshot carries only integer kinematics. -/
theorem snapshot_rounds_kinematics (W : Grid) (p : Body) :
    (snapshotState W p).player.x = round p.x
    ∧ (snapshotState W p).player.y = round p.y
    ∧ (snapshotState W p).player.vx = round p.vx
    ∧ (snapshotState W p).player.vy = round p.vy
    ∧ (snapshotState W p).player.onGround = p.onGround := by
  refine ⟨?_, ?_, ?_, ?_, rfl⟩ <;>
    simp [snapshotState, jsRound, round_eq]

/-- C7: the update step triggers the level reset exactly when the
post-physics position satisfies `x > GOAL_X - TILE ∧ y < (LEVEL_H-3)*TILE`;
the reset restores the spawn state exactly (`x = 2` tiles, `y = 12` tiles,
`vx = vy = 0`, `onGround = false`, `facing = 1`), and otherwise the tick
performs no reset (the state is the physics result, with only the
`onGroundLast` tracking write applied). -/
theorem update_goal_reset (W : Grid) (ks : Keys) (dt : ℚ) (p : Body) :
    (goalReached (stepPhysics W ks dt p) →
      update W ks dt p =
        { stepPhysics W ks dt p with
          x := 32 * 2, y := 32 * 12, vx := 0, vy := 0,
          onGround := false, facing := 1, onGroundLast := false })
    ∧ (¬ goalReached (stepPhysics W ks dt p) →
      update W ks dt p =
        { stepPhysics W ks dt p with
          onGroundLast := (stepPhysics W ks dt p).onGround }) := by
  constructor <;> intro hg <;> simp [update, hg, resetBody]

/-- Witness for `update_goal_reset`: a body past the goal line resets to
spawn. -/
theorem update_goal_reset_witness :
    update emptyGrid noKeys (1/60) pGoal =
      { stepPhysics emptyGrid noKeys (1/60) pGoal with
        x := 32 * 2, y := 32 * 12, vx := 0, vy := 0,
        onGround := false, facing := 1, onGroundLast := false } :=
  (update_goal_reset emptyGrid noKeys (1/60) pGoal).1 (by with_unfolding_all decide)

/-- C3: the snapshot's `nearGrid` cell at row `r`, column `c` equals
`isSolidTile (footCol + c) (footRow - r)` for all `0 ≤ r < 5`, `0 ≤ c < 9`,
where `footCol = ⌊(x + w/2) / TILE⌋` and `footRow = ⌊(y + h) / TILE⌋`;
in particular cell `(0,0)` is the solidity at the foot tile itself. -/
theorem snapshot_nearGrid_cell (W : Grid) (p : Body) (r c : ℕ)
    (hr : r < 5) (hc : c < 9) :
    ((snapshotState W p).nearGrid.getD r []).getD c 0 =
      (if isSolidTile W (⌊(p.x + p.w / 2) / 32⌋ + (c : ℤ))
                        (⌊(p.y + p.h) / 32⌋ - (r : ℤ)) then 1 else 0) := by
  unfold snapshotState
  simp only [List.getD, List.get?_map, List.get?_range hr, List.get?_range hc,
    Option.map_some', Option.getD_some]

/-- C2 counterexample: the jump gate of `update` (game.js lines 160–164) is
level-triggered, not edge-triggered.  With `keys.Space` held in two
consecutive ticks (so the second tick has no rising edge of the input),
`bHeld` lands on the ground strip during the first tick (leaving
`onGroundLast = true` and `vy = 0`), and the second tick applies the
impulse anyway: its final `vy` is `JUMP_VY = -520`, where gravity alone
would give `0 + 30`. -/
theorem jump_held_reapplied_counterexample :
    (update levelCell ksJump (1/60) bHeld).onGroundLast = true
    ∧ (update levelCell ksJump (1/60) bHeld).vy = 0
    ∧ (update levelCell ksJump (1/60)
        (update levelCell ksJump (1/60) bHeld)).vy = JUMP_VY := by
  refine ⟨?_, ?_, ?_⟩ <;> with_unfolding_all decide

/-- C2 (amended): for any tick taken well inside empty space (so neither
collision pass hits and the goal reset cannot fire), the jump impulse
`vy = JUMP_VY` is applied if and only if the jump input is down this tick
(`Space` or `KeyZ`) while `onGroundLast` (grounded at the end of the
previous tick) is true — with no rising-edge condition on the input, so a
held input re-applies the impulse on every grounded-last tick; otherwise
`vy` is exactly the gravity integration `vy + GRAVITY*dt`. -/
theorem jump_impulse_level_triggered (ks : Keys) (s : Body)
    (hw1 : 1 ≤ s.w) (hh1 : 1 ≤ s.h)
    (hx1 : 37 ≤ s.x) (hx2 : s.x + s.w ≤ 3676)
    (hy1 : 32 ≤ s.y) (hy2 : s.y + s.h ≤ 608)
    (hvy1 : -1890 ≤ s.vy) (hvy2 : s.vy ≤ 1880) :
    (update emptyGrid ks (1/60) s).vy =
      if (ks.space || ks.keyZ) && s.onGroundLast then JUMP_VY
      else s.vy + GRAVITY * (1/60) := by
  set p1 := integrate ks (1/60) s with hp1
  have hfx : p1.x = s.x := rfl
  have hfy : p1.y = s.y := rfl
  have hfw : p1.w = s.w := rfl
  have hfh : p1.h = s.h := rfl
  have hfvy : p1.vy =
      if (ks.space || ks.keyZ) && s.onGroundLast then JUMP_VY
      else s.vy + GRAVITY * (1/60) := rfl
  -- clamp-and-friction bound on the integrated horizontal speed
  have hvxb : -187 ≤ p1.vx ∧ p1.vx ≤ 187 := by
    have hvx : p1.vx = (max (min (s.vx + ((if ks.arrowLeft then -MOVE_ACCEL else 0)
        + (if ks.arrowRight then MOVE_ACCEL else 0)) * (1/60)) MAX_SPEED_X) (-MAX_SPEED_X))
        * FRICTION := rfl
    set v := s.vx + ((if ks.arrowLeft then -MOVE_ACCEL else 0)
        + (if ks.arrowRight then MOVE_ACCEL else 0)) * (1/60) with hv
    have h2 : -MAX_SPEED_X ≤ max (min v MAX_SPEED_X) (-MAX_SPEED_X) := le_max_right _ _
    have h3 : max (min v MAX_SPEED_X) (-MAX_SPEED_X) ≤ MAX_SPEED_X :=
      max_le (min_le_right _ _) (by unfold MAX_SPEED_X; norm_num)
    rw [hvx]
    unfold MAX_SPEED_X at h2 h3
    unfold MAX_SPEED_X FRICTION
    constructor <;> nlinarith
  have hdx1 : -4 ≤ p1.vx * (1/60) := by linarith [hvxb.1]
  have hdx2 : p1.vx * (1/60) ≤ 4 := by linarith [hvxb.2]
  have hvyb : -1860 ≤ p1.vy ∧ p1.vy ≤ 1910 := by
    rw [hfvy]
    split
    · unfold JUMP_VY; norm_num
    · unfold GRAVITY; constructor <;> linarith
  -- horizontal scan misses: everything scanned is in bounds, and the grid is empty
  have hH : horizHit emptyGrid p1 (p1.vx * (1/60)) = false := by
    apply horizHit_eq_false
    intro ty hty1 hty2
    apply isSolidTile_emptyGrid
    · -- 0 ≤ xTileFor
      unfold xTileFor
      split <;> (apply le_floor_div32; rw [hfx]) <;> push_cast
      · rw [hfw]; linarith
      · linarith
    · -- xTileFor < 120
      unfold xTileFor
      split <;> (apply floor_div32_lt; rw [hfx]) <;> push_cast
      · rw [hfw]; linarith
      · linarith
    · exact le_trans (le_floor_div32 (by rw [hfy]; push_cast; linarith)) hty1
    · exact lt_of_le_of_lt hty2 (floor_div32_lt (by rw [hfy, hfh]; push_cast; linarith))
  have e2 : rectVsTilesMove emptyGrid p1 (p1.vx * (1/60)) 0
      = { p1 with x := p1.x + p1.vx * (1/60) } := rectH_move hH
  set p2 : Body := { p1 with x := p1.x + p1.vx * (1/60) } with hp2
  have hp2x1 : 33 ≤ p2.x := by show 33 ≤ p1.x + p1.vx * (1/60); rw [hfx]; linarith
  have hp2x2 : p2.x + p2.w ≤ 3680 := by
    show p1.x + p1.vx * (1/60) + p1.w ≤ 3680
    rw [hfx, hfw]; linarith
  have hp2w : p2.w = s.w := hfw
  have hp2y : p2.y = s.y := hfy
  have hp2h : p2.h = s.h := hfh
  have hp2vy : p2.vy = p1.vy := rfl
  -- vertical scan misses
  have hV : vertHit emptyGrid p2 (p2.vy * (1/60)) = false := by
    apply vertHit_eq_false
    intro tx htx1 htx2
    apply isSolidTile_emptyGrid
    · exact le_trans (le_floor_div32 (by push_cast; linarith)) htx1
    · refine lt_of_le_of_lt htx2 (floor_div32_lt ?_)
      push_cast
      linarith [hp2x2, hp2w, hfw, hw1]
    · -- 0 ≤ yTileFor
      unfold yTileFor
      split <;> (apply le_floor_div32; rw [hp2y]) <;> push_cast
      · rw [hp2vy, hp2h]; linarith [hvyb.1]
      · rw [hp2vy]; linarith [hvyb.1]
    · -- yTileFor < 20
      unfold yTileFor
      split <;> (apply floor_div32_lt; rw [hp2y]) <;> push_cast
      · rw [hp2vy, hp2h]; linarith [hvyb.2]
      · rw [hp2vy]; linarith [hvyb.2]
  have e3 : rectVsTilesMove emptyGrid p2 0 (p2.vy * (1/60))
      = { p2 with y := p2.y + p2.vy * (1/60) } := rectV_move hV
  set p3 : Body := { p2 with y := p2.y + p2.vy * (1/60) } with hp3
  have hstep : stepPhysics emptyGrid ks (1/60) s = p3 := by
    show rectVsTilesMove emptyGrid (rectVsTilesMove emptyGrid p1 (p1.vx * (1/60)) 0) 0
        ((rectVsTilesMove emptyGrid p1 (p1.vx * (1/60)) 0).vy * (1/60)) = p3
    rw [e2, e3]
  have hgoal : ¬ goalReached p3 := by
    unfold goalReached GOAL_X
    rintro ⟨hgx, -⟩
    have : p3.x = p2.x := rfl
    rw [this] at hgx
    have := hp2x2
    have hpw : 1 ≤ p2.w := by rw [hp2w]; exact hw1
    norm_num at hgx
    linarith
  have hgoal2 : ¬ goalReached (stepPhysics emptyGrid ks (1/60) s) := by
    rw [hstep]; exact hgoal
  rw [update_of_not_goal emptyGrid ks (1/60) s hgoal2]
  show (stepPhysics emptyGrid ks (1/60) s).vy = _
  rw [hstep]
  show p1.vy = _
  exact hfvy

/-- Witness for `jump_impulse_level_triggered`: held jump key with
`onGroundLast = true` produces the impulse. -/
theorem jump_impulse_level_triggered_witness :
    (update emptyGrid ksJump (1/60) bAmend).vy = JUMP_VY := by
  rw [jump_impulse_level_triggered ksJump bAmend
    (by with_unfolding_all decide) (by with_unfolding_all decide)
    (by with_unfolding_all decide) (by with_unfolding_all decide)
    (by with_unfolding_all decide) (by with_unfolding_all decide)
    (by with_unfolding_all decide) (by with_unfolding_all decide)]
  with_unfolding_all decide

/-- C8 counterexample: the claimed free-fall invariant is broken by the
goal reset.  `bGoalFall` sits at `x = 3713 > GOAL_X - TILE`, `y = 500`,
with `vy = 0` and an empty grid — every condition of the claim holds (no
solid tile anywhere below its box within the level) — yet the tick resets
the body to spawn, so `y` strictly *decreases* from 500 to 384 instead of
increasing. -/
theorem freefall_goal_reset_counterexample :
    0 ≤ bGoalFall.vy
    ∧ (∀ tx ty : ℤ, emptyGrid tx ty = false)
    ∧ (update emptyGrid noKeys (1/60) bGoalFall).y = 32 * 12
    ∧ (update emptyGrid noKeys (1/60) bGoalFall).y < bGoalFall.y := by
  refine ⟨by with_unfolding_all decide, fun _ _ => rfl,
    by with_unfolding_all decide, by with_unfolding_all decide⟩

/-- C8 (amended): a body in free fall — non-negative vertical velocity,
not grounded on the previous tick, inside the level with its box at least
one tile clear of the level's left and right ends, not reaching the level
floor this tick, with no in-level solid tile in any row extending below
its bottom edge among the columns its box spans when the vertical axis is
resolved (i.e. after the same tick's horizontal resolution; for a body
with no horizontal motion these are just its own columns), and whose tick
does not trigger the goal reset — ends the physics tick still with
`onGround = false` and a strictly increased `y`.  Applied tick after
tick, this holds until a solid tile (or the closed-world floor, or the
goal line) is reached. -/
theorem freefall_tick_amended (W : Grid) (ks : Keys) (s : Body)
    (hvy : 0 ≤ s.vy) (hgl : s.onGroundLast = false)
    (hw1 : 1 ≤ s.w) (hw2 : s.w ≤ 31) (hh1 : 1 ≤ s.h)
    (hx0 : 0 ≤ s.x) (hxl : 36 ≤ s.x + s.w) (hxr : s.x + s.w ≤ 3804)
    (hy1 : 0 ≤ s.y) (hyF : s.y + s.h + (s.vy + 30) * (1/60) < 640)
    (hbelow : ∀ tx ty : ℤ, 0 ≤ tx → tx < 120 → 0 ≤ ty → ty < 20 →
      (rectVsTilesMove W (integrate ks (1/60) s)
          ((integrate ks (1/60) s).vx * (1/60)) 0).x < 32 * ((tx : ℚ) + 1) →
      32 * (tx : ℚ) < (rectVsTilesMove W (integrate ks (1/60) s)
          ((integrate ks (1/60) s).vx * (1/60)) 0).x + s.w →
      s.y + s.h < 32 * ((ty : ℚ) + 1) → W tx ty = false)
    (hng : ¬ goalReached (stepPhysics W ks (1/60) s)) :
    (update W ks (1/60) s).onGround = false
    ∧ s.y < (update W ks (1/60) s).y := by
  set p1 := integrate ks (1/60) s with hp1
  have hfx : p1.x = s.x := rfl
  have hfy : p1.y = s.y := rfl
  have hfw : p1.w = s.w := rfl
  have hfh : p1.h = s.h := rfl
  have hfog : p1.onGround = false := rfl
  have hfvy : p1.vy = s.vy + 30 := by
    show (if (ks.space || ks.keyZ) && s.onGroundLast then JUMP_VY
          else s.vy + GRAVITY * (1/60)) = s.vy + 30
    rw [hgl]
    simp [GRAVITY]
    norm_num
  have hvxb : -187 ≤ p1.vx ∧ p1.vx ≤ 187 := by
    have hvx : p1.vx = (max (min (s.vx + ((if ks.arrowLeft then -MOVE_ACCEL else 0)
        + (if ks.arrowRight then MOVE_ACCEL else 0)) * (1/60)) MAX_SPEED_X) (-MAX_SPEED_X))
        * FRICTION := rfl
    set v := s.vx + ((if ks.arrowLeft then -MOVE_ACCEL else 0)
        + (if ks.arrowRight then MOVE_ACCEL else 0)) * (1/60) with hv
    have h2 : -MAX_SPEED_X ≤ max (min v MAX_SPEED_X) (-MAX_SPEED_X) := le_max_right _ _
    have h3 : max (min v MAX_SPEED_X) (-MAX_SPEED_X) ≤ MAX_SPEED_X :=
      max_le (min_le_right _ _) (by unfold MAX_SPEED_X; norm_num)
    rw [hvx]
    unfold MAX_SPEED_X at h2 h3
    unfold MAX_SPEED_X FRICTION
    constructor <;> nlinarith
  have hwin := rectH_window W p1 (p1.vx * (1/60))
    (by linarith [hvxb.1]) (by linarith [hvxb.2])
  have hxb := rectH_x_inLevel W p1 (p1.vx * (1/60))
    (by linarith [hvxb.1]) (by linarith [hvxb.2])
    (by rw [hfw]; exact hw1) (by rw [hfw]; exact hw2) (by rw [hfh]; exact hh1)
    (by rw [hfx]; exact hx0) (by rw [hfx, hfw]; exact hxl) (by rw [hfx, hfw]; exact hxr)
  set p2 := rectVsTilesMove W p1 (p1.vx * (1/60)) 0 with hp2
  obtain ⟨-, hp2y, hp2w, hp2h, hp2vy, hp2og⟩ := hwin
  obtain ⟨hp2x0, hp2xr⟩ := hxb
  rw [hfw] at hp2xr hp2w
  rw [hfy] at hp2y
  rw [hfh] at hp2h
  rw [hfvy] at hp2vy
  rw [hfog] at hp2og
  have hdy : p2.vy * (1/60) = (s.vy + 30) * (1/60) := by rw [hp2vy]
  have hdypos : 0 < p2.vy * (1/60) := by rw [hdy]; positivity
  have hV : vertHit W p2 (p2.vy * (1/60)) = false := by
    apply vertHit_eq_false
    intro tx htx1 htx2
    have hyt : yTileFor p2 (p2.vy * (1/60)) = ⌊(p2.y + p2.vy * (1/60) + p2.h) / 32⌋ := by
      unfold yTileFor; rw [if_pos hdypos]
    -- column bounds: the scanned columns overlap the post-horizontal box
    have hfl1 : 32 * ((xLeftOf p2 : ℚ)) ≤ p2.x := by
      unfold xLeftOf; exact floor_div32_le _
    have hfl2 : 32 * ((xRightOf p2 : ℚ)) ≤ p2.x + p2.w - 1 := by
      unfold xRightOf; exact floor_div32_le _
    have htx1q : ((xLeftOf p2 : ℚ)) ≤ (tx : ℚ) := by exact_mod_cast htx1
    have htx2q : (tx : ℚ) ≤ ((xRightOf p2 : ℚ)) := by exact_mod_cast htx2
    have hxlt : p2.x < 32 * ((xLeftOf p2 : ℚ)) + 32 := by
      have := lt_floor_div32_succ p2.x
      unfold xLeftOf
      linarith
    have hb1 : (0:ℤ) ≤ tx := by
      refine le_trans ?_ htx1
      unfold xLeftOf
      exact le_floor_div32 (by push_cast; linarith)
    have hb2 : tx < 120 := by
      have hq : 32 * (tx : ℚ) ≤ p2.x + p2.w - 1 := by
        calc 32 * (tx : ℚ) ≤ 32 * ((xRightOf p2 : ℚ)) := by linarith
          _ ≤ p2.x + p2.w - 1 := hfl2
      have : (tx : ℚ) < 120 := by rw [hp2w] at hq; linarith
      exact_mod_cast this
    have hwin1 : p2.x < 32 * ((tx : ℚ) + 1) := by linarith
    have hwin2 : 32 * (tx : ℚ) < p2.x + s.w := by
      rw [hp2w] at hfl2
      linarith
    have hb3 : (0:ℤ) ≤ yTileFor p2 (p2.vy * (1/60)) := by
      rw [hyt]
      apply le_floor_div32
      rw [hp2y, hp2h, hdy]
      push_cast
      have : (0:ℚ) ≤ (s.vy + 30) * (1/60) := by positivity
      linarith
    have hb4 : yTileFor p2 (p2.vy * (1/60)) < 20 := by
      rw [hyt]
      apply floor_div32_lt
      rw [hp2y, hp2h, hdy]
      push_cast
      linarith
    rw [isSolidTile_inBounds W hb1 hb2 hb3 hb4]
    apply hbelow tx _ hb1 hb2 hb3 hb4 hwin1 hwin2
    have h5 : yTileFor p2 (p2.vy * (1/60)) = ⌊(s.y + (s.vy + 30) * (1/60) + s.h) / 32⌋ := by
      rw [hyt, hp2y, hp2h, hdy]
    have h6 := lt_floor_div32_succ (s.y + (s.vy + 30) * (1/60) + s.h)
    rw [h5]
    have hd : (0:ℚ) < (s.vy + 30) * (1/60) := by positivity
    linarith
  have e3 : rectVsTilesMove W p2 0 (p2.vy * (1/60))
      = { p2 with y := p2.y + p2.vy * (1/60) } := rectV_move hV
  set p3 : Body := { p2 with y := p2.y + p2.vy * (1/60) } with hp3
  have hstep : stepPhysics W ks (1/60) s = p3 := by
    show rectVsTilesMove W (rectVsTilesMove W p1 (p1.vx * (1/60)) 0) 0
        ((rectVsTilesMove W p1 (p1.vx * (1/60)) 0).vy * (1/60)) = p3
    rw [← hp2, e3]
  rw [update_of_not_goal W ks (1/60) s hng]
  constructor
  · show (stepPhysics W ks (1/60) s).onGround = false
    rw [hstep]
    show p2.onGround = false
    exact hp2og
  · show s.y < (stepPhysics W ks (1/60) s).y
    rw [hstep]
    show s.y < p2.y + p2.vy * (1/60)
    rw [hp2y, hdy]
    have : (0:ℚ) < (s.vy + 30) * (1/60) := by positivity
    linarith

/-- Witness for `freefall_tick_amended`: a falling body in empty space,
away from the goal. -/
theorem freefall_tick_amended_witness :
    (update emptyGrid noKeys (1/60) bFall).onGround = false
    ∧ bFall.y < (update emptyGrid noKeys (1/60) bFall).y :=
  freefall_tick_amended emptyGrid noKeys bFall
    (by with_unfolding_all decide) (by with_unfolding_all decide)
    (by with_unfolding_all decide) (by with_unfolding_all decide)
    (by with_unfolding_all decide) (by with_unfolding_all decide)
    (by with_unfolding_all decide) (by with_unfolding_all decide)
    (by with_unfolding_all decide) (by with_unfolding_all decide)
    (fun _ _ _ _ _ _ _ _ _ => rfl)
    (by with_unfolding_all decide)

/-- Witness for `snapshot_nearGrid_cell` at `r = c = 0`. -/
theorem snapshot_nearGrid_cell_witness :
    (0 : ℕ) < 5 ∧ (0 : ℕ) < 9 ∧
    ((snapshotState emptyGrid playerInit).nearGrid.getD 0 []).getD 0 0 =
      (if isSolidTile emptyGrid (⌊(playerInit.x + playerInit.w / 2) / 32⌋ + ((0 : ℕ) : ℤ))
                      (⌊(playerInit.y + playerInit.h) / 32⌋ - ((0 : ℕ) : ℤ)) then 1 else 0) :=
  ⟨by decide, by decide,
    snapshot_nearGrid_cell emptyGrid playerInit 0 0 (by decide) (by decide)⟩

/-- C5: on every perception snapshot (serialized as the server receives it),
the local fallback heuristic returns exactly `"right_jump"` when `onGround`
is true and (`nearGrid[0][1] = 1` or `nearGrid[0][2] = 1` or
`nearGrid[0][0] = 0`), and exactly `"right"` otherwise; in particular with
`onGround = false` the output is never a jump-including token. -/
theorem heuristic_on_snapshot (W : Grid) (p : Body) :
    (heuristic (snapToJson (snapshotState W p)) =
      if (snapshotState W p).player.onGround = true
         ∧ (((snapshotState W p).nearGrid.getD 0 []).getD 1 0 = 1
            ∨ ((snapshotState W p).nearGrid.getD 0 []).getD 2 0 = 1
            ∨ ((snapshotState W p).nearGrid.getD 0 []).getD 0 0 = 0)
      then "right_jump" else "right")
    ∧ ((snapshotState W p).player.onGround = false →
        heuristic (snapToJson (snapshotState W p)) = "right") := by
  have hmain : heuristic (snapToJson (snapshotState W p)) =
      if (snapshotState W p).player.onGround = true
         ∧ (((snapshotState W p).nearGrid.getD 0 []).getD 1 0 = 1
            ∨ ((snapshotState W p).nearGrid.getD 0 []).getD 2 0 = 1
            ∨ ((snapshotState W p).nearGrid.getD 0 []).getD 0 0 = 0)
      then "right_jump" else "right" := by
    simp [heuristic, snapToJson, getField, List.find?, jsOr, truthy, jIndex, isNumVal,
    snapshotState, List.map_map, List.getD, List.getElem?_map, List.getElem?_range]
    exact if_congr (by tauto) rfl rfl
  refine ⟨hmain, fun hog => ?_⟩
  rw [hmain, if_neg]
  rintro ⟨h1, -⟩
  rw [hog] at h1
  exact Bool.false_ne_true h1

/-- Witness for `heuristic_on_snapshot`: the spawn-state snapshot is
airborne, so the heuristic emits `"right"`. -/
theorem heuristic_on_snapshot_witness :
    heuristic (snapToJson (snapshotState levelCell playerInit)) = "right" :=
  (heuristic_on_snapshot levelCell playerInit).2 (by with_unfolding_all decide)

/-- C6: `decideAction` always returns one of the six action tokens; a remote
response is accepted exactly when its `action` field, stringified and
lower-cased, is one of the six, and every other outcome — no configured
client, a thrown error or timeout, malformed JSON, or an invalid/missing
token — resolves to the local heuristic's output (the function is total:
no exception escapes). -/
theorem decideAction_characterization (s : JVal) (r : RemoteOutcome) :
    decideAction s r ∈ ACTIONS
    ∧ (∀ parsed, r = .response (some parsed) →
        (normalizeAction parsed ∈ ACTIONS → decideAction s r = normalizeAction parsed)
        ∧ (normalizeAction parsed ∉ ACTIONS → decideAction s r = heuristic s))
    ∧ ((r = .noClient ∨ r = .failure ∨ r = .response none) → decideAction s r = heuristic s) := by
  refine ⟨?_, ?_, ?_⟩
  · cases r with
    | noClient => exact heuristic_mem_ACTIONS s
    | failure => exact heuristic_mem_ACTIONS s
    | response po =>
      cases po with
      | none => exact heuristic_mem_ACTIONS s
      | some parsed =>
        show (if ACTIONS.contains (normalizeAction parsed) then normalizeAction parsed
              else heuristic s) ∈ ACTIONS
        split
        · next hc => exact (contains_iff_mem_actions _).mp hc
        · exact heuristic_mem_ACTIONS s
  · rintro parsed rfl
    constructor
    · intro hmem
      show (if ACTIONS.contains (normalizeAction parsed) then normalizeAction parsed
            else heuristic s) = normalizeAction parsed
      rw [if_pos ((contains_iff_mem_actions _).mpr hmem)]
    · intro hmem
      show (if ACTIONS.contains (normalizeAction parsed) then normalizeAction parsed
            else heuristic s) = heuristic s
      rw [if_neg (fun hc => hmem ((contains_iff_mem_actions _).mp hc))]
  · rintro (rfl | rfl | rfl) <;> rfl

/-- Witness for `decideAction_characterization`: an upper-case remote token
is normalised and accepted. -/
theorem decideAction_characterization_witness :
    decideAction (jobj []) (.response (some (jobj [("action", jstr "JUMP")]))) = "jump" := by
  have h := (decideAction_characterization (jobj [])
      (.response (some (jobj [("action", jstr "JUMP")])))).2.1
      (jobj [("action", jstr "JUMP")]) rfl
  have hn : normalizeAction (jobj [("action", jstr "JUMP")]) = "jump" := by
    with_unfolding_all decide
  rw [← hn]
  exact h.1 (by rw [hn]; decide)

/-- C10: `validateState` returns the state unchanged exactly when the state
is a truthy object whose `player.onGround` is a boolean and whose
`nearGrid` is an array of at least 5 rows, each of the first 5 rows an
array of at least 9 entries — and throws exactly otherwise.  Nothing else
is inspected: oversized grids or non-0/1 cell values are accepted
unchanged. -/
theorem validateState_characterization (state : JVal) :
    (validateState state = .ok state ↔
      (truthy state = true ∧ typeofObject state = true
       ∧ isBoolVal (getField (getField state "player") "onGround") = true
       ∧ ∃ rows, getField state "nearGrid" = jarr rows ∧ 5 ≤ rows.length
           ∧ ∀ r : ℕ, r < 5 →
             ∃ cells, rows.getD r jundef = jarr cells ∧ 9 ≤ cells.length))
    ∧ ((∃ e, validateState state = .error e) ↔
      ¬ (truthy state = true ∧ typeofObject state = true
       ∧ isBoolVal (getField (getField state "player") "onGround") = true
       ∧ ∃ rows, getField state "nearGrid" = jarr rows ∧ 5 ≤ rows.length
           ∧ ∀ r : ℕ, r < 5 →
             ∃ cells, rows.getD r jundef = jarr cells ∧ 9 ≤ cells.length)) := by
  have master :
      ((truthy state = true ∧ typeofObject state = true
        ∧ isBoolVal (getField (getField state "player") "onGround") = true
        ∧ ∃ rows, getField state "nearGrid" = jarr rows ∧ 5 ≤ rows.length
            ∧ ∀ r : ℕ, r < 5 →
              ∃ cells, rows.getD r jundef = jarr cells ∧ 9 ≤ cells.length)
        ∧ validateState state = .ok state)
      ∨ (¬ (truthy state = true ∧ typeofObject state = true
        ∧ isBoolVal (getField (getField state "player") "onGround") = true
        ∧ ∃ rows, getField state "nearGrid" = jarr rows ∧ 5 ≤ rows.length
            ∧ ∀ r : ℕ, r < 5 →
              ∃ cells, rows.getD r jundef = jarr cells ∧ 9 ≤ cells.length)
        ∧ ∃ e, validateState state = .error e) := by
    rw [validateState_eq]
    by_cases h1 : truthy state = true ∧ typeofObject state = true
    · rw [if_neg (not_not_intro h1)]
      by_cases h2 : isBoolVal (getField (getField state "player") "onGround") = true
      · rw [if_neg (not_not_intro h2)]
        cases hng : getField state "nearGrid" with
        | jarr rows =>
          dsimp only
          by_cases h3 : rows.length < 5
          · rw [if_pos h3]
            right
            refine ⟨?_, _, rfl⟩
            rintro ⟨-, -, -, rows', hr', hlen', -⟩
            injection hr' with h
            subst h
            omega
          · rw [if_neg h3]
            cases hcr : checkRows rows 0 with
            | ok u =>
              cases u
              left
              refine ⟨⟨h1.1, h1.2, h2, rows, rfl, by omega, ?_⟩, rfl⟩
              intro r hr
              exact (checkRows_ok_iff rows 5 0 (by omega)).mp hcr r (by omega) hr
            | error e =>
              right
              refine ⟨?_, e, rfl⟩
              rintro ⟨-, -, -, rows', hr', hlen', hrows⟩
              injection hr' with h
              subst h
              have : checkRows rows 0 = .ok () :=
                (checkRows_ok_iff rows 5 0 (by omega)).mpr
                  (fun i _ hi => hrows i hi)
              rw [this] at hcr
              exact absurd hcr (by simp)
        | jundef =>
          right
          refine ⟨?_, _, rfl⟩
          rintro ⟨-, -, -, rows', hr', -, -⟩
          exact absurd hr' (by simp)
        | jnull =>
          right
          refine ⟨?_, _, rfl⟩
          rintro ⟨-, -, -, rows', hr', -, -⟩
          exact absurd hr' (by simp)
        | jbool b =>
          right
          refine ⟨?_, _, rfl⟩
          rintro ⟨-, -, -, rows', hr', -, -⟩
          exact absurd hr' (by simp)
        | jnum q =>
          right
          refine ⟨?_, _, rfl⟩
          rintro ⟨-, -, -, rows', hr', -, -⟩
          exact absurd hr' (by simp)
        | jstr s1 =>
          right
          refine ⟨?_, _, rfl⟩
          rintro ⟨-, -, -, rows', hr', -, -⟩
          exact absurd hr' (by simp)
        | jobj fs =>
          right
          refine ⟨?_, _, rfl⟩
          rintro ⟨-, -, -, rows', hr', -, -⟩
          exact absurd hr' (by simp)
      · rw [if_pos h2]
        right
        refine ⟨?_, _, rfl⟩
        rintro ⟨-, -, hb, -⟩
        exact h2 hb
    · rw [if_pos h1]
      right
      refine ⟨?_, _, rfl⟩
      rintro ⟨ht, hto, -⟩
      exact h1 ⟨ht, hto⟩
  rcases master with ⟨hc, hv⟩ | ⟨hc, e, hv⟩
  · refine ⟨⟨fun _ => hc, fun _ => hv⟩, ⟨?_, fun hnc => absurd hc hnc⟩⟩
    rintro ⟨e, he⟩
    rw [hv] at he
    exact absurd he (by simp)
  · refine ⟨⟨?_, fun hcc => absurd hcc hc⟩, ⟨fun _ => hc, fun _ => ⟨e, hv⟩⟩⟩
    intro hok
    rw [hv] at hok
    exact absurd hok (by simp)

/-- Witness for `validateState_characterization`: the empty object is
rejected (its `player.onGround` is not a boolean). -/
theorem validateState_characterization_witness :
    ∃ e, validateState (jobj []) = .error e :=
  (validateState_characterization (jobj [])).2.mpr
    (by rintro ⟨-, -, hb, -⟩; exact absurd hb (by decide))

/-- C1 counterexample: the horizontal scan checks only the final leading
column, so a large delta tunnels.  `c1Body` spans column 58 at row 17 of
the real level; moving right by `dx = 82` puts its leading edge in column
61 (empty), skipping the solid pillar at column 60 — which is in the
move's path — so no resolution fires: `vx` is not zeroed, the leading edge
is nowhere near a tile boundary, and the final box overlaps the solid
tile `(60,17)`'s interior by 14px, far more than the 0.01px inset. -/
theorem horiz_tunnel_counterexample :
    isSolidTile levelCell 60 17 = true
    ∧ pathCol c1Body 82 60
    ∧ (rectVsTilesMove levelCell c1Body 82 0).vx = 100
    ∧ (rectVsTilesMove levelCell c1Body 82 0).x = 1938
    ∧ deepOverlap levelCell (rectVsTilesMove levelCell c1Body 82 0) (1/100) := by
  refine ⟨by decide, Or.inl ⟨by norm_num, ?_, ?_⟩, by with_unfolding_all decide,
    by with_unfolding_all decide, 60, 17, by decide, ?_, ?_⟩
  · show xRightOf c1Body < 60
    with_unfolding_all decide
  · show (60:ℤ) < xTileFor c1Body 82
    with_unfolding_all decide
  · with_unfolding_all decide
  · with_unfolding_all decide

/-- C1 (amended): provided the body is between 1 and 32 px wide and at
least 1 px tall, starts with its box clear of every solid tile in its
vertically-overlapped rows, its bottom edge does not dip into the 1px
band below the scanned row span, and every tile column strictly between
its starting span and the move's leading column is free of solid tiles in
those rows (no tunneling), horizontal resolution never leaves the box
overlapping a solid tile's interior by more than the 0.01px inset along
x — and on a hit it parks the leading edge exactly 0.01px from the tile
boundary and zeroes `vx`. -/
theorem horiz_resolution_amended (W : Grid) (o : Body) (dx : ℚ)
    (hw1 : 1 ≤ o.w) (hw2 : o.w ≤ 32) (hh1 : 1 ≤ o.h)
    (hclean : ∀ tc ty : ℤ, isSolidTile W tc ty = true → 0 < vpen o ty → hpen o tc ≤ 0)
    (hskin : ∀ ty : ℤ, 0 < vpen o ty → ty ≤ yBotOf o)
    (hpath : ∀ tc ty : ℤ, pathCol o dx tc → yTopOf o ≤ ty → ty ≤ yBotOf o →
        isSolidTile W tc ty = false) :
    ¬ deepOverlap W (rectVsTilesMove W o dx 0) (1/100)
    ∧ (0 < dx → horizHit W o dx = true →
        (rectVsTilesMove W o dx 0).x + o.w = (xTileFor o dx : ℚ) * 32 - 1/100
        ∧ (rectVsTilesMove W o dx 0).vx = 0)
    ∧ (dx < 0 → horizHit W o dx = true →
        (rectVsTilesMove W o dx 0).x = ((xTileFor o dx : ℚ) + 1) * 32 + 1/100
        ∧ (rectVsTilesMove W o dx 0).vx = 0) := by
  have hdisj : ∀ tc ty : ℤ, isSolidTile W tc ty = true → 0 < vpen o ty →
      o.x + o.w ≤ 32 * (tc : ℚ) ∨ 32 * ((tc : ℚ) + 1) ≤ o.x :=
    fun tc ty hs hv => box_col_disjoint hw1 (hclean tc ty hs hv)
  have hOldL : 32 * ((xRightOf o : ℚ)) ≤ o.x + o.w - 1 := by
    unfold xRightOf
    exact floor_div32_le _
  refine ⟨?_, ?_, ?_⟩
  · -- no deep overlap after the pass
    rintro ⟨tc, ty, hsolid, hpen', hvpen'⟩
    rcases lt_trichotomy dx 0 with hneg | hzero | hpos
    · -- leftward move
      have hxT : xTileFor o dx = ⌊(o.x + dx) / 32⌋ := by
        unfold xTileFor
        rw [if_neg (not_lt_of_lt hneg)]
      have hxTle : 32 * ((xTileFor o dx : ℚ)) ≤ o.x + dx := by
        rw [hxT]; exact floor_div32_le _
      cases hh : horizHit W o dx
      · -- no hit: moved the full delta
        rw [rectH_move hh] at hpen' hvpen'
        have hv : 0 < vpen o ty := hvpen'
        have hr1 := scan_row_of_vpen_pos o hv
        have hr2 := hskin ty hv
        have hb : 1/100 < min ((o.x + dx) + o.w) (32 * ((tc : ℚ) + 1))
            - max (o.x + dx) (32 * (tc : ℚ)) := hpen'
        obtain ⟨g1, g2, g3, g4⟩ := max_min_gap hb
        -- tc is at least the leading column
        have htcge : xTileFor o dx ≤ tc := by
          have hq : (xTileFor o dx : ℚ) < (tc : ℚ) + 1 := by linarith
          have : xTileFor o dx < tc + 1 := by exact_mod_cast hq
          omega
        by_cases htc : tc = xTileFor o dx
        · subst htc
          rw [horizHit_false_out hh ty hr1 hr2] at hsolid
          exact absurd hsolid (by simp)
        · have htcgt : xTileFor o dx < tc := by omega
          by_cases hlft : tc ≤ xLeftOf o
          · rw [hpath tc ty (Or.inr ⟨hneg, htcgt, hlft⟩) hr1 hr2] at hsolid
            exact absurd hsolid (by simp)
          · rcases hdisj tc ty hsolid hv with hE1 | hE2
            · linarith
            · have hq : (tc : ℚ) + 1 ≤ o.x / 32 := by
                rw [le_div_iff (by norm_num : (0:ℚ) < 32)]
                linarith
              have : tc + 1 ≤ xLeftOf o := by
                unfold xLeftOf
                rw [Int.le_floor]
                push_cast
                exact hq
              omega
      · -- hit: clamped to the right edge of the obstacle column
        rw [rectH_hit_neg hneg hh] at hpen' hvpen'
        have hv : 0 < vpen o ty := hvpen'
        have hr1 := scan_row_of_vpen_pos o hv
        have hr2 := hskin ty hv
        obtain ⟨sy, hsy1, hsy2, hsolidT⟩ := horizHit_iff.mp hh
        have hsv : 0 < vpen o sy := vpen_pos_of_scan o hh1 hsy1 hsy2
        have hD2 : 32 * ((xTileFor o dx : ℚ) + 1) ≤ o.x := by
          rcases hdisj (xTileFor o dx) sy hsolidT hsv with hD1 | hD2
          · linarith
          · exact hD2
        have hb : 1/100 < min ((((xTileFor o dx : ℚ) + 1) * 32 + 1/100) + o.w)
            (32 * ((tc : ℚ) + 1))
            - max (((xTileFor o dx : ℚ) + 1) * 32 + 1/100) (32 * (tc : ℚ)) := hpen'
        obtain ⟨g1, g2, g3, g4⟩ := max_min_gap hb
        -- tc = xTileFor + 1
        have htcq1 : (xTileFor o dx : ℚ) + 1 < (tc : ℚ) + 1 := by linarith
        have htcq2 : (tc : ℚ) < (xTileFor o dx : ℚ) + 2 := by linarith
        have htc1 : xTileFor o dx < tc := by
          have hq : (xTileFor o dx : ℚ) < (tc : ℚ) := by linarith
          exact_mod_cast hq
        have htc2 : tc < xTileFor o dx + 2 := by
          have : (tc : ℚ) < ((xTileFor o dx + 2 : ℤ) : ℚ) := by push_cast; linarith
          exact_mod_cast this
        have htceq : tc = xTileFor o dx + 1 := by omega
        have hlft : tc ≤ xLeftOf o := by
          have hq : (tc : ℚ) ≤ o.x / 32 := by
            rw [le_div_iff (by norm_num : (0:ℚ) < 32)]
            have : (tc : ℚ) = (xTileFor o dx : ℚ) + 1 := by exact_mod_cast htceq
            linarith
          unfold xLeftOf
          rw [Int.le_floor]
          exact hq
        rw [hpath tc ty (Or.inr ⟨hneg, htc1, hlft⟩) hr1 hr2] at hsolid
        exact absurd hsolid (by simp)
    · -- no move
      subst hzero
      rw [rect_zero] at hpen' hvpen'
      have := hclean tc ty hsolid hvpen'
      linarith
    · -- rightward move
      have hxT : xTileFor o dx = ⌊(o.x + dx + o.w) / 32⌋ := by
        unfold xTileFor
        rw [if_pos hpos]
      have hxTle : 32 * ((xTileFor o dx : ℚ)) ≤ o.x + dx + o.w := by
        rw [hxT]; exact floor_div32_le _
      have hxTgt : o.x + dx + o.w < 32 * ((xTileFor o dx : ℚ) + 1) := by
        rw [hxT]; exact lt_floor_div32_succ _
      cases hh : horizHit W o dx
      · -- no hit
        rw [rectH_move hh] at hpen' hvpen'
        have hv : 0 < vpen o ty := hvpen'
        have hr1 := scan_row_of_vpen_pos o hv
        have hr2 := hskin ty hv
        have hb : 1/100 < min ((o.x + dx) + o.w) (32 * ((tc : ℚ) + 1))
            - max (o.x + dx) (32 * (tc : ℚ)) := hpen'
        obtain ⟨g1, g2, g3, g4⟩ := max_min_gap hb
        have htcle : tc ≤ xTileFor o dx := by
          rw [hxT, Int.le_floor]
          rw [le_div_iff (by norm_num : (0:ℚ) < 32)]
          linarith
        by_cases htc : tc = xTileFor o dx
        · subst htc
          rw [horizHit_false_out hh ty hr1 hr2] at hsolid
          exact absurd hsolid (by simp)
        · by_cases hcase : xRightOf o < tc
          · rw [hpath tc ty (Or.inl ⟨hpos, hcase, by omega⟩) hr1 hr2] at hsolid
            exact absurd hsolid (by simp)
          · push_neg at hcase
            have hcq : 32 * (tc : ℚ) ≤ 32 * ((xRightOf o : ℚ)) := by
              have : (tc : ℚ) ≤ (xRightOf o : ℚ) := by exact_mod_cast hcase
              linarith
            rcases hdisj tc ty hsolid hv with hE1 | hE2
            · linarith
            · linarith
      · -- hit
        rw [rectH_hit_pos hpos hh] at hpen' hvpen'
        have hv : 0 < vpen o ty := hvpen'
        have hr1 := scan_row_of_vpen_pos o hv
        have hr2 := hskin ty hv
        obtain ⟨sy, hsy1, hsy2, hsolidT⟩ := horizHit_iff.mp hh
        have hsv : 0 < vpen o sy := vpen_pos_of_scan o hh1 hsy1 hsy2
        have hD1 : o.x + o.w ≤ 32 * ((xTileFor o dx : ℚ)) := by
          rcases hdisj (xTileFor o dx) sy hsolidT hsv with hD1 | hD2
          · exact hD1
          · linarith
        have hb : 1/100 < min (((xTileFor o dx : ℚ) * 32 - o.w - 1/100) + o.w)
            (32 * ((tc : ℚ) + 1))
            - max ((xTileFor o dx : ℚ) * 32 - o.w - 1/100) (32 * (tc : ℚ)) := hpen'
        obtain ⟨g1, g2, g3, g4⟩ := max_min_gap hb
        have htclt : tc < xTileFor o dx := by
          have : (tc : ℚ) < (xTileFor o dx : ℚ) := by linarith
          exact_mod_cast this
        have htcge : xTileFor o dx - 1 ≤ tc := by
          have : ((xTileFor o dx : ℚ)) - 1 < (tc : ℚ) + 1 := by linarith
          have h2 : ((xTileFor o dx - 1 : ℤ) : ℚ) < ((tc + 1 : ℤ) : ℚ) := by push_cast; linarith
          have := lt_of_lt_of_le h2 (le_refl _)
          have h3 : xTileFor o dx - 1 < tc + 1 := by exact_mod_cast h2
          omega
        by_cases hcase : xRightOf o < tc
        · rw [hpath tc ty (Or.inl ⟨hpos, hcase, htclt⟩) hr1 hr2] at hsolid
          exact absurd hsolid (by simp)
        · push_neg at hcase
          have hcq : 32 * (tc : ℚ) ≤ 32 * ((xRightOf o : ℚ)) := by
            have : (tc : ℚ) ≤ (xRightOf o : ℚ) := by exact_mod_cast hcase
            linarith
          rcases hdisj tc ty hsolid hv with hE1 | hE2
          · linarith
          · -- 32(tc+1) ≤ o.x with tc = xT - 1 forces 32·xT ≤ o.x, against hD1
            have htceq : tc = xTileFor o dx - 1 := by omega
            have : ((tc : ℚ) + 1) = (xTileFor o dx : ℚ) := by
              have : ((tc + 1 : ℤ) : ℚ) = ((xTileFor o dx : ℤ) : ℚ) := by
                exact_mod_cast congrArg (fun z : ℤ => z) (by omega : tc + 1 = xTileFor o dx)
              push_cast at this
              linarith
            linarith
  · intro hpos hh
    rw [rectH_hit_pos hpos hh]
    refine ⟨?_, rfl⟩
    show (xTileFor o dx : ℚ) * 32 - o.w - 1/100 + o.w = (xTileFor o dx : ℚ) * 32 - 1/100
    ring
  · intro hneg hh
    rw [rectH_hit_neg hneg hh]
    exact ⟨rfl, rfl⟩

/-- Witness for `horiz_resolution_amended`: a clear rightward step in
empty space. -/
theorem horiz_resolution_amended_witness :
    ¬ deepOverlap emptyGrid (rectVsTilesMove emptyGrid bProbe 3 0) (1/100) := by
  refine (horiz_resolution_amended emptyGrid bProbe 3
    (by with_unfolding_all decide) (by with_unfolding_all decide)
    (by with_unfolding_all decide) ?_ ?_ ?_).1
  · -- the probe body starts clear of every solid (out-of-bounds) tile
    intro tc ty hs hv
    simp only [isSolidTile] at hs
    split at hs
    · next hcond =>
      have hv2 : 0 < min ((66:ℚ) + 30) (32 * ((ty : ℚ) + 1)) - max 66 (32 * (ty : ℚ)) := hv
      have hymin := min_le_left ((66:ℚ) + 30) (32 * ((ty : ℚ) + 1))
      have hymin2 := min_le_right ((66:ℚ) + 30) (32 * ((ty : ℚ) + 1))
      have hymax := le_max_left (66:ℚ) (32 * (ty : ℚ))
      have hymax2 := le_max_right (66:ℚ) (32 * (ty : ℚ))
      show hpen bProbe tc ≤ 0
      have hxmin1 := min_le_left ((64:ℚ) + 26) (32 * ((tc : ℚ) + 1))
      have hxmin2 := min_le_right ((64:ℚ) + 26) (32 * ((tc : ℚ) + 1))
      have hxmax1 := le_max_left (64:ℚ) (32 * (tc : ℚ))
      have hxmax2 := le_max_right (64:ℚ) (32 * (tc : ℚ))
      have hgoal : hpen bProbe tc
          = min ((64:ℚ) + 26) (32 * ((tc : ℚ) + 1)) - max 64 (32 * (tc : ℚ)) := rfl
      rw [hgoal]
      rcases hcond with h | h | h | h
      · have hq : (tc : ℚ) ≤ -1 := by exact_mod_cast (by omega : tc ≤ -1)
        linarith
      · exfalso
        have hq : (ty : ℚ) ≤ -1 := by exact_mod_cast (by omega : ty ≤ -1)
        linarith
      · have hq : (120 : ℚ) ≤ (tc : ℚ) := by
          exact_mod_cast (le_trans (by norm_num : (120:ℤ) ≤ 120) h)
        linarith
      · exfalso
        have hq : (20 : ℚ) ≤ (ty : ℚ) := by
          exact_mod_cast (le_trans (by norm_num : (20:ℤ) ≤ 20) h)
        linarith
    · exact absurd hs (by simp [emptyGrid])
  · -- no bottom-skin row: the box bottom is exactly on a tile boundary
    intro ty hv
    have hv2 : 0 < min ((66:ℚ) + 30) (32 * ((ty : ℚ) + 1)) - max 66 (32 * (ty : ℚ)) := hv
    have hymin := min_le_left ((66:ℚ) + 30) (32 * ((ty : ℚ) + 1))
    have hymax2 := le_max_right (66:ℚ) (32 * (ty : ℚ))
    have hq : 32 * (ty : ℚ) < 96 := by linarith
    have h3 : (ty : ℚ) < 3 := by linarith
    have h4 : ty < 3 := by exact_mod_cast h3
    have h5 : yBotOf bProbe = 2 := by with_unfolding_all decide
    omega
  · -- nothing lies strictly between the starting span and the leading column
    intro tc ty hp h1 h2
    exfalso
    have e1 : xRightOf bProbe = 2 := by with_unfolding_all decide
    have e2 : xTileFor bProbe 3 = 2 := by with_unfolding_all decide
    rcases hp with ⟨-, hA, hB⟩ | ⟨hneg, -⟩
    · rw [e1] at hA
      rw [e2] at hB
      omega
    · norm_num at hneg

end Mario
